import Mathlib

/-!
Verification development for the mcp-hfspace adapter.

This file gives a shallow embedding, in Lean 4, of the core pipeline of the
repository: path resolution (src/endpoint_wrapper.ts), schema conversion
(src/gradio_convert.ts), the progress notifier (src/progress_notifier.ts),
the streaming call loop (EndpointWrapper.handleToolCall), file-path
validation (validateFilePath / EndpointWrapper.call) and the result
converter (src/content_converter.ts).  JavaScript machine numbers are
modelled as exact rationals; JavaScript `undefined`/`null` and truthiness
are modelled explicitly on a small universe of runtime values (`GValue`).
Asynchronous I/O (the Gradio client, the filesystem, HTTP fetches) is
modelled by explicit event lists and oracle functions, so every definition
is executable.
-/

/-- A JavaScript runtime value, restricted to the shapes that flow through
the pipeline: strings, numbers, booleans, null, undefined, and the Gradio
file-data object (with optional `url`, `path`, `orig_name`, `mime_type`
sub-fields).  Numbers are modelled as exact rationals. -/
inductive GValue where
  | undefined : GValue
  | null : GValue
  | str (s : String) : GValue
  | num (q : ℚ) : GValue
  | bool (b : Bool) : GValue
  | file (url : Option String) (path : Option String)
      (origName : Option String) (mimeType : Option String) : GValue
  | handle (path : String) : GValue
deriving DecidableEq, Repr

/-- JavaScript truthiness of a `GValue`: `undefined`, `null`, `""`, `0` and
`false` are falsy, everything else (including any object) is truthy. -/
def GValue.truthy : GValue → Bool
  | .undefined => false
  | .null => false
  | .str s => !(s == "")
  | .num q => !(q == 0)
  | .bool b => b
  | .file _ _ _ _ => true
  | .handle _ => true

/-- Property access `v.url`: defined on file-data objects, `undefined`
elsewhere (and `undefined` when the field is absent). -/
def GValue.urlField : GValue → GValue
  | .file (some u) _ _ _ => .str u
  | _ => .undefined

/-- Property access `v.path`. -/
def GValue.pathField : GValue → GValue
  | .file _ (some p) _ _ => .str p
  | _ => .undefined

/-- JavaScript `a || b`: the left operand when truthy, otherwise the right. -/
def jsOr (a b : GValue) : GValue := if a.truthy then a else b

/-- Split a character list on a separator, JavaScript `split` semantics
(the empty input yields one empty segment). -/
def splitOnChar (sep : Char) : List Char → List (List Char)
  | [] => [[]]
  | c :: rest =>
      let r := splitOnChar sep rest
      if c = sep then [] :: r
      else
        match r with
        | h :: t => (c :: h) :: t
        | [] => [[c]]

/-- Whitespace trim on both ends of a character list. -/
def trimChars (cs : List Char) : List Char :=
  ((cs.dropWhile Char.isWhitespace).reverse.dropWhile Char.isWhitespace).reverse

/-- Whether the first list starts with the second. -/
def startsWithChars : List Char → List Char → Bool
  | _, [] => true
  | [], _ :: _ => false
  | c :: cs, p :: ps => c = p && startsWithChars cs ps

/-- String front-match `s.startsWith(pat)`. -/
def strStarts (s pat : String) : Bool :=
  startsWithChars s.data pat.data

/-- Digit run at the front of a character list. -/
def spanDigits (cs : List Char) : List Char × List Char :=
  (cs.takeWhile Char.isDigit, cs.dropWhile Char.isDigit)

/-- Value of a digit string read in base 10. -/
def digitsToNat (ds : List Char) : ℕ :=
  ds.foldl (fun a c => 10 * a + (c.toNat - 48)) 0

/-- Decimal numeric literal `[+-]? digits [. digits]?` (the whole input must
be consumed), as used by the JavaScript `Number(string)` conversion.  The
model covers plain decimal forms; exponent and hex forms do not occur in the
inputs relevant here. -/
def decLiteral (cs : List Char) : Option ℚ :=
  let (sgn, cs1) : ℚ × List Char :=
    match cs with
    | '-' :: r => (-1, r)
    | '+' :: r => (1, r)
    | r => (1, r)
  let (ip, cs2) := spanDigits cs1
  let (fp, cs3) : Option (List Char) × List Char :=
    match cs2 with
    | '.' :: r => let (f, r2) := spanDigits r; (some f, r2)
    | r => (none, r)
  if ip.isEmpty && (fp.getD []).isEmpty then none
  else if !cs3.isEmpty then none
  else
    let frac : ℚ := match fp with
      | some f => (digitsToNat f : ℚ) / ((10 : ℚ) ^ f.length)
      | none => 0
    some (sgn * ((digitsToNat ip : ℚ) + frac))

/-- JavaScript `Number(string)`: trimmed empty string is `0`, otherwise the
decimal literal value; `none` stands for `NaN`. -/
def jsNumber (s : String) : Option ℚ :=
  let t := trimChars s.data
  if t.isEmpty then some 0 else decLiteral t

/-- JavaScript `parseInt(string)` in base 10: optional sign then a leading
digit run, trailing characters ignored; `none` stands for `NaN`. -/
def jsParseInt (s : String) : Option ℤ :=
  let t := s.data.dropWhile Char.isWhitespace
  let (sgn, t1) : ℤ × List Char :=
    match t with
    | '-' :: r => (-1, r)
    | '+' :: r => (1, r)
    | r => (1, r)
  let (ds, _) := spanDigits t1
  if ds.isEmpty then none else some (sgn * (digitsToNat ds : ℤ))

/-!
PathResolver: `endpointSpecified` and `parsePath` from
src/endpoint_wrapper.ts.  Both strip one leading `/` and split on `/`.
-/

/-- Normalization shared by `endpointSpecified` and `parsePath`: the source
`path.replace(/^\//, "").split("/")` strips one leading slash and splits. -/
def pathParts (p : String) : List String :=
  (splitOnChar '/'
    (match p.data with
     | '/' :: r => r
     | r => r)).map String.mk

/-- Source `endpointSpecified`: the normalized path has exactly 3 segments. -/
def endpointSpecified (p : String) : Bool :=
  (pathParts p).length == 3

/-- Identifier-character test of `formatMcpToolName`: the character class
left intact by `replace(/[^a-zA-Z0-9_-]/g, "_")`. -/
def isToolNameChar (c : Char) : Bool :=
  c.isAlphanum || c == '_' || c == '-'

/-- Source `formatMcpToolName`: join with a hyphen, replace every character
outside the allowed class with `_`, truncate to 64 characters. -/
def formatMcpToolName (space rawEndpoint : String) : String :=
  String.mk (((space ++ "-" ++ rawEndpoint).data.map
    (fun c => if isToolNameChar c then c else '_')).take 64)

/-- Source `formatMcpDisplayName`. -/
def formatMcpDisplayName (space rawEndpoint : String) : String :=
  space ++ " endpoint /" ++ rawEndpoint

/-- The structured endpoint reference produced by `parsePath`.  The
designator is either a slash-prefixed name or the `parseInt` of the raw
segment (`none` modelling the `NaN` that `parseInt` yields on a segment
that `Number` accepted, such as the empty string). -/
structure EndpointPath where
  owner : String
  space : String
  endpoint : String ⊕ Option ℤ
  mcpToolName : String
  mcpDisplayName : String
deriving DecidableEq, Repr

/-- Source `parsePath`: fails unless the normalized path has exactly three
segments; the third segment becomes a positional index exactly when
`Number(raw)` is not `NaN`, otherwise a slash-prefixed name. -/
def parsePath (p : String) : Except String EndpointPath :=
  match pathParts p with
  | [owner, space, rawEndpoint] =>
      Except.ok
        { owner := owner
          space := space
          endpoint :=
            if (jsNumber rawEndpoint).isNone then Sum.inl ("/" ++ rawEndpoint)
            else Sum.inr (jsParseInt rawEndpoint)
          mcpToolName := formatMcpToolName space rawEndpoint
          mcpDisplayName := formatMcpDisplayName space rawEndpoint }
  | _ =>
      Except.error
        ("Invalid Endpoint path format [" ++ p ++ "]. Use or vendor/space/endpoint")

/-- C8: `endpointSpecified(path)` is true iff `parsePath(path)` does not
fail with the invalid-path-format condition; both normalize the path the
same way (`pathParts`) and test for exactly three segments. -/
theorem endpointSpecified_iff_parsePath_isOk (p : String) :
    (endpointSpecified p = ((pathParts p).length == 3)) ∧
    (endpointSpecified p = true ↔ (parsePath p).isOk = true) := by
  refine ⟨rfl, ?_⟩
  unfold endpointSpecified parsePath
  rcases hp : pathParts p with _ | ⟨a, _ | ⟨b, _ | ⟨c, _ | ⟨d, rest⟩⟩⟩⟩ <;>
    simp [Except.isOk, Except.toBool]

/-!
ProgressNotifier: `createProgressNotifier` from src/progress_notifier.ts.
The notifier keeps one mutable integer `lastProgress` (initially 0); each
status event produces a notification whose progress value is computed from
the event and the previous value.  Only the progress arithmetic is modelled
(the derived human-readable message carries no claim).  JavaScript floating
arithmetic is modelled by exact rationals; the two agree whenever the
step-progress `length` field is not 1 (the source produces non-finite
values there).
-/

/-- Stage tag of a Gradio status message. -/
inductive Stage where
  | pending
  | generating
  | complete
  | error
deriving DecidableEq, Repr

/-- One entry of `progress_data`; `index`/`length` are `none` when the
corresponding field is not a number. -/
structure ProgressUnit where
  index : Option ℚ
  length : Option ℚ
  desc : Option String
deriving DecidableEq, Repr

/-- A Gradio status message, with the fields the notifier and the call loop
read: `stage`, `message`, `queue`, `position`, `progress_data`. -/
structure StatusMsg where
  stage : Stage
  message : Option String
  queue : Bool
  position : Option ℤ
  progress_data : List ProgressUnit
deriving DecidableEq, Repr

/-- Status message with only a stage (every other field absent/falsy). -/
def mkStatus (st : Stage) : StatusMsg :=
  ⟨st, none, false, none, []⟩

/-- JavaScript `Math.round` for the values arising here (round half toward
positive infinity). -/
def jsRound (q : ℚ) : ℤ :=
  ⌊q + 1 / 2⌋

/-- The progress candidate computed from one status event before the
monotonicity clamp: the step-progress band when `progress_data` has a
numeric head entry, the stage heuristic when `progress_data` is empty, and
the previous value otherwise. -/
def stepComputed (last : ℤ) (st : StatusMsg) : ℤ :=
  match st.progress_data with
  | [] =>
      match st.stage with
      | .pending => if st.queue then (if st.position = some 0 then 10 else 5) else 15
      | .generating => 50
      | .complete => 100
      | .error => last
  | item :: _ =>
      match item.index, item.length with
      | some i, some l => jsRound (10 + (i / (l - 1)) * 80)
      | _, _ => last

/-- One notifier step: the emitted progress value, which also becomes the
new `lastProgress`.  Mirrors the clamp in `createNotification`: take the
max with the previous value, force 100 on `complete`, else bump a stalled
value at or above 75 by one, capped at 99. -/
def notifStep (last : ℤ) (st : StatusMsg) : ℤ :=
  if st.stage = .complete then 100
  else if max (stepComputed last st) last = last ∧ 75 ≤ last then min 99 (last + 1)
  else max (stepComputed last st) last

/-- Progress values emitted for a sequence of status events fed to one
notifier instance (with a truthy progress token, so every event emits). -/
def notifEmit (last : ℤ) : List StatusMsg → List ℤ
  | [] => []
  | st :: rest =>
      let p := notifStep last st
      p :: notifEmit p rest

/-- Final notifier state after a sequence of events. -/
def lastState (last : ℤ) (evs : List StatusMsg) : ℤ :=
  evs.foldl notifStep last

/-- Well-formed step data: when the head `progress_data` entry is numeric,
its index lies within `0 … length - 1` and the length is at least 2 (the
shape Gradio emits; rules out the degenerate division). -/
def stepDataOk (st : StatusMsg) : Bool :=
  match st.progress_data with
  | [] => true
  | item :: _ =>
      match item.index, item.length with
      | some i, some l => decide (2 ≤ l) && decide (0 ≤ i) && decide (i ≤ l - 1)
      | _, _ => true

/-- The step-progress band stays at or below 90 for well-formed data. -/
theorem jsRound_step_le (i l : ℚ) (h2 : 2 ≤ l) (h0 : 0 ≤ i) (hi : i ≤ l - 1) :
    jsRound (10 + (i / (l - 1)) * 80) ≤ 90 := by
  have hl : (0 : ℚ) < l - 1 := by linarith
  have hq : i / (l - 1) ≤ 1 := (div_le_one hl).mpr (by linarith)
  have hq0 : 0 ≤ i / (l - 1) := div_nonneg h0 (le_of_lt hl)
  have : (10 : ℚ) + (i / (l - 1)) * 80 ≤ 90 := by nlinarith
  unfold jsRound
  rw [Int.floor_le_iff]
  push_cast
  linarith

/-- A notifier step never decreases the progress value, as long as the
previous value is at most 99. -/
theorem notifStep_ge (last : ℤ) (st : StatusMsg) (h99 : last ≤ 99) :
    last ≤ notifStep last st := by
  unfold notifStep
  split
  · omega
  · split
    · omega
    · exact le_max_right _ _

/-- The candidate progress stays at or below 99 for a non-complete event
with well-formed step data, given the previous value is at most 99. -/
theorem stepComputed_le (last : ℤ) (st : StatusMsg)
    (hwf : stepDataOk st = true) (hnc : st.stage ≠ .complete) (h99 : last ≤ 99) :
    stepComputed last st ≤ 99 := by
  unfold stepComputed
  unfold stepDataOk at hwf
  rcases hpd : st.progress_data with _ | ⟨item, rest⟩
  · rcases hst : st.stage <;> simp_all
    all_goals split <;> omega
  · rw [hpd] at hwf
    rcases hidx : item.index with _ | i <;> rcases hlen : item.length with _ | l <;>
      simp only [hidx, hlen, decide_eq_true_eq, Bool.and_eq_true] at hwf ⊢
    · exact h99
    · exact h99
    · exact h99
    · obtain ⟨⟨h1, h2⟩, h3⟩ := hwf
      have := jsRound_step_le i l h1 h2 h3
      omega

/-- A notifier step stays at or below 99 for a non-complete event with
well-formed step data. -/
theorem notifStep_le (last : ℤ) (st : StatusMsg)
    (hwf : stepDataOk st = true) (hnc : st.stage ≠ .complete) (h99 : last ≤ 99) :
    notifStep last st ≤ 99 := by
  unfold notifStep
  have hc := stepComputed_le last st hwf hnc h99
  split
  · exact absurd (by assumption) hnc
  · split
    · omega
    · simp only [max_le_iff]; omega

/-- A complete-stage event always drives the emitted value to 100. -/
theorem notifStep_complete (last : ℤ) (st : StatusMsg)
    (h : st.stage = .complete) : notifStep last st = 100 := by
  unfold notifStep
  simp [h]

/-- Final state bound: feeding only non-complete well-formed events keeps
the notifier state at or below 99. -/
theorem lastState_le (evs : List StatusMsg) : ∀ (last : ℤ), last ≤ 99 →
    (∀ st ∈ evs, stepDataOk st = true) → (∀ st ∈ evs, st.stage ≠ .complete) →
    lastState last evs ≤ 99 := by
  induction evs with
  | nil => intro last h99 _ _; exact h99
  | cons st rest ih =>
      intro last h99 hwf hnc
      have hst : lastState last (st :: rest) = lastState (notifStep last st) rest := rfl
      rw [hst]
      exact ih _ (notifStep_le last st (hwf st (by simp)) (hnc st (by simp)) h99)
        (fun s hs => hwf s (by simp [hs])) (fun s hs => hnc s (by simp [hs]))

/-- Emitted values for an appended event list split at the intermediate
notifier state. -/
theorem notifEmit_append (l1 l2 : List StatusMsg) : ∀ last : ℤ,
    notifEmit last (l1 ++ l2) = notifEmit last l1 ++ notifEmit (lastState last l1) l2 := by
  induction l1 with
  | nil => intro last; rfl
  | cons st rest ih =>
      intro last
      simp only [List.cons_append, notifEmit, List.append_eq]
      rw [ih]
      rfl

/-- In a chain where every element but possibly the final one satisfies
`stage ≠ complete` (phrased as: no element is followed by another after a
complete), every element of the prefix is non-complete. -/
theorem chain_ne_complete_of_concat (l : List StatusMsg) (x : StatusMsg) :
    List.Chain' (fun a _ => a.stage ≠ Stage.complete) (l ++ [x]) →
    ∀ y ∈ l, y.stage ≠ Stage.complete := by
  induction l with
  | nil => intro _ y hy; cases hy
  | cons b bs ih =>
      intro hch y hy
      rw [List.cons_append, List.chain'_cons'] at hch
      rcases List.mem_cons.mp hy with rfl | hy2
      · rcases hhd : (bs ++ [x]).head? with _ | z
        · simp at hhd
        · exact hch.1 z hhd
      · exact ih hch.2 y hy2

/-- The emitted sequence, prefixed with the previous state, is a
non-decreasing chain, for well-formed events where only the final event may
be complete-staged. -/
theorem notifEmit_chain (evs : List StatusMsg) : ∀ (last : ℤ), last ≤ 99 →
    (∀ st ∈ evs, stepDataOk st = true) →
    List.Chain' (fun a _ => a.stage ≠ Stage.complete) evs →
    List.Chain' (· ≤ ·) (last :: notifEmit last evs) := by
  induction evs with
  | nil => intro last _ _ _; simp [notifEmit]
  | cons st rest ih =>
      intro last h99 hwf hch
      simp only [notifEmit]
      rw [List.chain'_cons]
      refine ⟨notifStep_ge last st h99, ?_⟩
      rcases rest with _ | ⟨r, rs⟩
      · simp [notifEmit]
      · rw [List.chain'_cons] at hch
        exact ih _ (notifStep_le last st (hwf st (by simp)) hch.1 h99)
          (fun s hs => hwf s (by simp [hs])) hch.2

/-- C2 (amended): for sequences of status events in which every numeric
step-progress payload is well formed (length at least 2, index between 0
and length − 1) and in which no event follows a complete-stage event, the
emitted progress sequence is non-decreasing and its final value is 100 iff
the last event fed had stage `complete`.  (Unrestricted, the claim fails:
see the counterexample.) -/
theorem progressNotifier_monotone_amended (evs : List StatusMsg)
    (hwf : ∀ st ∈ evs, stepDataOk st = true)
    (hch : List.Chain' (fun a _ => a.stage ≠ Stage.complete) evs) :
    List.Chain' (· ≤ ·) (notifEmit 0 evs) ∧
    ((notifEmit 0 evs).getLast? = some 100 ↔
      evs.getLast?.map StatusMsg.stage = some Stage.complete) := by
  constructor
  · exact (notifEmit_chain evs 0 (by norm_num) hwf hch).tail
  · rcases List.eq_nil_or_concat evs with rfl | ⟨l, a, rfl⟩
    · simp [notifEmit]
    · simp only [List.concat_eq_append] at hwf hch ⊢
      have hemit : notifEmit 0 (l ++ [a]) =
          notifEmit 0 l ++ [notifStep (lastState 0 l) a] := by
        rw [notifEmit_append]; rfl
      have hlast : (notifEmit 0 (l ++ [a])).getLast? =
          some (notifStep (lastState 0 l) a) := by
        rw [hemit, List.getLast?_concat]
      have hprev : lastState 0 l ≤ 99 :=
        lastState_le l 0 (by norm_num) (fun s hs => hwf s (by simp [hs]))
          (chain_ne_complete_of_concat l a hch)
      rw [hlast, List.getLast?_concat]
      rcases ha : a.stage with h | h | h | h
      · have : notifStep (lastState 0 l) a ≤ 99 :=
          notifStep_le _ a (hwf a (by simp)) (by simp [ha]) hprev
        simp [ha]; omega
      · have : notifStep (lastState 0 l) a ≤ 99 :=
          notifStep_le _ a (hwf a (by simp)) (by simp [ha]) hprev
        simp [ha]; omega
      · simp [ha, notifStep_complete _ a ha]
      · have : notifStep (lastState 0 l) a ≤ 99 :=
          notifStep_le _ a (hwf a (by simp)) (by simp [ha]) hprev
        simp [ha]; omega

/-- Witness: the amended C2 theorem applied to the concrete sequence
`[pending, complete]`, whose hypotheses hold by computation. -/
theorem progressNotifier_monotone_amended_witness :
    ((∀ st ∈ [mkStatus Stage.pending, mkStatus Stage.complete], stepDataOk st = true) ∧
      List.Chain' (fun a _ => a.stage ≠ Stage.complete)
        [mkStatus Stage.pending, mkStatus Stage.complete]) ∧
    (List.Chain' (· ≤ ·) (notifEmit 0 [mkStatus Stage.pending, mkStatus Stage.complete]) ∧
      ((notifEmit 0 [mkStatus Stage.pending, mkStatus Stage.complete]).getLast? = some 100 ↔
        ([mkStatus Stage.pending, mkStatus Stage.complete]).getLast?.map StatusMsg.stage =
          some Stage.complete)) :=
  ⟨⟨by decide, by simp [List.chain'_cons, mkStatus]⟩,
    progressNotifier_monotone_amended _ (by decide) (by simp [List.chain'_cons, mkStatus])⟩

/-- C2 counterexample: feeding `[complete, pending]` emits `[100, 99]` — a
strictly decreasing step — so the unrestricted monotonicity claim is false
on the code. -/
theorem progressNotifier_monotone_cex :
    notifEmit 0 [mkStatus Stage.complete, mkStatus Stage.pending] = [100, 99] ∧
    ¬ List.Chain' (· ≤ ·) (notifEmit 0 [mkStatus Stage.complete, mkStatus Stage.pending]) := by
  have h : notifEmit 0 [mkStatus Stage.complete, mkStatus Stage.pending] = [100, 99] := by
    decide
  refine ⟨h, ?_⟩
  rw [h]
  intro hc
  rw [List.chain'_cons] at hc
  omega

/-!
Call execution: `handleToolCall` from src/endpoint_wrapper.ts.  The
submission is modelled as the explicit list of stream events.  The loop
body: a `data` event keeps the string elements of its array when there is
at least one; a `status` event is examined only when the progress token is
truthy — an error stage throws, otherwise the notifier emits.  After the
loop, a missing result raises the no-data error.  The emitted progress
values are returned alongside the outcome.
-/

/-- One event of the Gradio submission stream. -/
inductive GradioEvent where
  | data (d : List GValue)
  | status (st : StatusMsg)
deriving DecidableEq, Repr

/-- Whether an event is a data event. -/
def GradioEvent.isData : GradioEvent → Bool
  | .data _ => true
  | .status _ => false

/-- Failure modes of one call: the remote reported an error-stage status
(message `Gradio error: …`), or the stream ended with no captured payload
(message `No data received from endpoint`).  Either is re-wrapped at the
outer boundary into the `Error calling endpoint: …` envelope. -/
inductive CallError where
  | remote (msg : String)
  | noData
deriving DecidableEq, Repr

/-- The string elements of a data array, in order — the source filter
`msg.data.filter(item => typeof item === "string")`. -/
def stringItems (d : List GValue) : List String :=
  d.filterMap (fun v => match v with | .str s => some s | _ => none)

/-- JavaScript truthiness of the normalized progress token (absent or empty
string is falsy). -/
def tokenTruthy : Option String → Bool
  | some s => !(s == "")
  | none => false

/-- The message of the error thrown on an error-stage status:
`Gradio error: ` followed by the remote message, or the generic placeholder
when the remote message is absent or empty. -/
def gradioErrMsg (st : StatusMsg) : String :=
  "Gradio error: " ++
    (match st.message with
     | some s => if s == "" then "Unknown error" else s
     | none => "Unknown error")

/-- The event loop of `handleToolCall`, threading the notifier state and
the captured result; returns the outcome together with the emitted
progress values. -/
def runLoop (tok : Option String) : ℤ → Option (List String) → List GradioEvent →
    Except CallError (Option (List String)) × List ℤ
  | _, result, [] => (Except.ok result, [])
  | last, result, .data d :: rest =>
      runLoop tok last
        (if (stringItems d).isEmpty then result else some (stringItems d)) rest
  | last, result, .status st :: rest =>
      if tokenTruthy tok then
        if st.stage = .error then
          (Except.error (CallError.remote (gradioErrMsg st)), [])
        else
          ((runLoop tok (notifStep last st) result rest).1,
            notifStep last st :: (runLoop tok (notifStep last st) result rest).2)
      else runLoop tok last result rest

/-- The whole of `handleToolCall` up to result conversion: run the loop
from a fresh notifier and no captured result, then fail with the no-data
error when nothing was captured. -/
def runStream (tok : Option String) (events : List GradioEvent) :
    Except CallError (List String) × List ℤ :=
  ((match (runLoop tok 0 none events).1 with
    | .ok none => Except.error CallError.noData
    | .ok (some v) => Except.ok v
    | .error e => Except.error e),
   (runLoop tok 0 none events).2)

/-- The first error-stage status event of the stream, if any. -/
def firstErrorStatus : List GradioEvent → Option StatusMsg
  | [] => none
  | .status st :: rest =>
      if st.stage = .error then some st else firstErrorStatus rest
  | .data _ :: rest => firstErrorStatus rest

/-- The payload-capture fold of the loop in isolation: a data event whose
array holds at least one string overwrites the captured value with its
string elements; every other event leaves it unchanged. -/
def foldCapture (result : Option (List String)) (events : List GradioEvent) :
    Option (List String) :=
  events.foldl (fun acc e => match e with
    | .data d => if (stringItems d).isEmpty then acc else some (stringItems d)
    | .status _ => acc) result

/-- The captured payload of a whole stream, starting from nothing. -/
def capturedStrings (events : List GradioEvent) : Option (List String) :=
  foldCapture none events

/-- The string elements of the last data event that contains at least one
string: the payload the loop ends up capturing. -/
def lastStringData : List GradioEvent → Option (List String)
  | [] => none
  | .data d :: rest =>
      (match lastStringData rest with
       | some v => some v
       | none => if (stringItems d).isEmpty then none else some (stringItems d))
  | .status _ :: rest => lastStringData rest

/-- The raw data array of the last data event of the stream (the quantity
the specification's data-capture sentence refers to). -/
def lastDataArray : List GradioEvent → Option (List GValue)
  | [] => none
  | .data d :: rest =>
      (match lastDataArray rest with
       | some v => some v
       | none => some d)
  | .status _ :: rest => lastDataArray rest

/-- Unfolding of the capture fold over a leading event. -/
theorem foldCapture_cons (r : Option (List String)) (e : GradioEvent)
    (rest : List GradioEvent) :
    foldCapture r (e :: rest) =
      foldCapture
        (match e with
         | .data d => if (stringItems d).isEmpty then r else some (stringItems d)
         | .status _ => r) rest := rfl

/-- The capture fold computes the last string-bearing data payload,
falling back to the initial value when there is none. -/
theorem foldCapture_eq (events : List GradioEvent) : ∀ r : Option (List String),
    foldCapture r events =
      (match lastStringData events with
       | some v => some v
       | none => r) := by
  induction events with
  | nil => intro r; rfl
  | cons e rest ih =>
      intro r
      rw [foldCapture_cons]
      cases e with
      | data d =>
          rw [ih]
          rcases h : lastStringData rest with _ | v
          · simp only [lastStringData, h]
            by_cases he : (stringItems d).isEmpty <;> simp [he]
          · simp only [lastStringData, h]
      | status st =>
          rw [ih]
          simp only [lastStringData]

/-- Outcome characterization of the event loop: with a truthy token the
first error-stage status aborts with its message; otherwise the loop
returns the capture fold. -/
theorem runLoop_fst (tok : Option String) (events : List GradioEvent) :
    ∀ (last : ℤ) (result : Option (List String)),
    (runLoop tok last result events).1 =
      (if tokenTruthy tok then
        match firstErrorStatus events with
        | some st => Except.error (CallError.remote (gradioErrMsg st))
        | none => Except.ok (foldCapture result events)
      else Except.ok (foldCapture result events)) := by
  induction events with
  | nil =>
      intro last result
      by_cases h : tokenTruthy tok <;> simp [runLoop, firstErrorStatus, h, foldCapture]
  | cons e rest ih =>
      intro last result
      cases e with
      | data d =>
          rw [show runLoop tok last result (.data d :: rest) =
            runLoop tok last
              (if (stringItems d).isEmpty then result else some (stringItems d)) rest from rfl]
          rw [ih]
          by_cases h : tokenTruthy tok <;>
            simp [h, firstErrorStatus, foldCapture_cons]
      | status st =>
          by_cases h : tokenTruthy tok
          · by_cases herr : st.stage = .error
            · simp [runLoop, h, herr, firstErrorStatus]
            · rw [show runLoop tok last result (.status st :: rest) =
                (if tokenTruthy tok then
                  if st.stage = .error then
                    (Except.error (CallError.remote (gradioErrMsg st)), [])
                  else
                    ((runLoop tok (notifStep last st) result rest).1,
                      notifStep last st :: (runLoop tok (notifStep last st) result rest).2)
                else runLoop tok last result rest) from rfl]
              rw [if_pos h, if_neg herr]
              simp only [ih, h, if_true, firstErrorStatus, if_neg herr, foldCapture_cons]
          · rw [show runLoop tok last result (.status st :: rest) =
              (if tokenTruthy tok then
                if st.stage = .error then
                  (Except.error (CallError.remote (gradioErrMsg st)), [])
                else
                  ((runLoop tok (notifStep last st) result rest).1,
                    notifStep last st :: (runLoop tok (notifStep last st) result rest).2)
              else runLoop tok last result rest) from rfl]
            rw [if_neg (by simp [h])]
            rw [ih]
            simp [h, firstErrorStatus, foldCapture_cons]

/-- With a falsy token the loop ignores status events entirely: it behaves
as if only the data events were present, and emits nothing. -/
theorem runLoop_no_token (tok : Option String) (h : tokenTruthy tok = false)
    (events : List GradioEvent) : ∀ (last : ℤ) (result : Option (List String)),
    runLoop tok last result events =
      runLoop tok last result (events.filter GradioEvent.isData) ∧
    (runLoop tok last result events).2 = [] := by
  induction events with
  | nil => intro last result; exact ⟨rfl, rfl⟩
  | cons e rest ih =>
      intro last result
      cases e with
      | data d =>
          have hf : (GradioEvent.data d :: rest).filter GradioEvent.isData =
              .data d :: rest.filter GradioEvent.isData := by
            simp [List.filter, GradioEvent.isData]
          rw [hf]
          rw [show runLoop tok last result (.data d :: rest) =
            runLoop tok last
              (if (stringItems d).isEmpty then result else some (stringItems d)) rest from rfl]
          rw [show runLoop tok last result (.data d :: rest.filter GradioEvent.isData) =
            runLoop tok last
              (if (stringItems d).isEmpty then result else some (stringItems d))
              (rest.filter GradioEvent.isData) from rfl]
          exact ih _ _
      | status st =>
          have hf : (GradioEvent.status st :: rest).filter GradioEvent.isData =
              rest.filter GradioEvent.isData := by
            simp [List.filter, GradioEvent.isData]
          rw [hf]
          rw [show runLoop tok last result (.status st :: rest) =
            (if tokenTruthy tok then
              if st.stage = .error then
                (Except.error (CallError.remote (gradioErrMsg st)), [])
              else
                ((runLoop tok (notifStep last st) result rest).1,
                  notifStep last st :: (runLoop tok (notifStep last st) result rest).2)
            else runLoop tok last result rest) from rfl]
          rw [if_neg (by simp [h])]
          exact ih _ _

/-- Starting the capture fold from nothing computes exactly the last
string-bearing data payload. -/
theorem capturedStrings_eq (events : List GradioEvent) :
    capturedStrings events = lastStringData events := by
  rw [capturedStrings, foldCapture_eq]
  rcases lastStringData events with _ | v <;> rfl

/-- Outcome of the whole loop-plus-no-data check: an abort on the first
error-stage status (only under a truthy token), else the captured payload,
else the no-data error. -/
theorem runStream_fst (tok : Option String) (events : List GradioEvent) :
    (runStream tok events).1 =
      (match (if tokenTruthy tok then firstErrorStatus events else none),
          lastStringData events with
       | some st, _ => Except.error (CallError.remote (gradioErrMsg st))
       | none, some v => Except.ok v
       | none, none => Except.error CallError.noData) := by
  unfold runStream
  rw [runLoop_fst, foldCapture_eq]
  by_cases ht : tokenTruthy tok
  · simp only [ht, if_true]
    rcases hf : firstErrorStatus events with _ | st
    · rcases hl : lastStringData events with _ | v <;> simp
    · simp
  · simp only [ht, Bool.false_eq_true, if_false]
    rcases hl : lastStringData events with _ | v <;> simp

/-- A concrete error-stage status event carrying the message "boom". -/
def errStatus : StatusMsg :=
  ⟨Stage.error, some "boom", false, none, []⟩

/-- C1 counterexample: with no progress token, an error-stage status event
does not abort the call with a remote-execution error — the status branch
is guarded by the token, so the stream just ends with the no-data failure
instead.  This falsifies the claim that the abort happens regardless of
whether a progress token was supplied. -/
theorem handleToolCall_errorStage_cex :
    (runStream none [GradioEvent.status errStatus]).1 = Except.error CallError.noData ∧
    (Except.error CallError.noData : Except CallError (List String)) ≠
      Except.error (CallError.remote (gradioErrMsg errStatus)) := by
  refine ⟨rfl, ?_⟩
  intro h
  cases h

/-- C1 (amended): error-stage status events abort the call (with the
remote-provided message, or the generic placeholder) only when a truthy
progress token was supplied — the whole status branch, error check
included, is skipped otherwise, making the call behave as if only data
events were present and emitting no progress notification; forwarding
through the notifier happens only with a truthy token. -/
theorem handleToolCall_errorStage_amended :
    (∀ (tok : Option String) (events : List GradioEvent) (st : StatusMsg),
        tokenTruthy tok = true → firstErrorStatus events = some st →
        (runStream tok events).1 = Except.error (CallError.remote (gradioErrMsg st))) ∧
    (∀ (tok : Option String) (events : List GradioEvent),
        tokenTruthy tok = false →
        runStream tok events = runStream tok (events.filter GradioEvent.isData) ∧
        (runStream tok events).2 = []) := by
  constructor
  · intro tok events st ht hf
    rw [runStream_fst]
    simp [ht, hf]
  · intro tok events h
    have h1 := runLoop_no_token tok h events 0 none
    constructor
    · unfold runStream
      rw [h1.1]
    · unfold runStream
      exact h1.2

/-- Witness for the amended C1 theorem at a concrete stream holding one
error-stage status, once with a truthy token and once with no token. -/
theorem handleToolCall_errorStage_amended_witness :
    (tokenTruthy (some "tok") = true ∧
      firstErrorStatus [GradioEvent.status errStatus] = some errStatus ∧
      (runStream (some "tok") [GradioEvent.status errStatus]).1 =
        Except.error (CallError.remote (gradioErrMsg errStatus))) ∧
    (tokenTruthy none = false ∧
      (runStream none [GradioEvent.status errStatus] =
        runStream none ([GradioEvent.status errStatus].filter GradioEvent.isData) ∧
        (runStream none [GradioEvent.status errStatus]).2 = [])) :=
  ⟨⟨rfl, rfl, handleToolCall_errorStage_amended.1 _ _ _ rfl rfl⟩,
    ⟨rfl, handleToolCall_errorStage_amended.2 _ _ rfl⟩⟩

/-- C3 counterexample: for the stream `[data ["a"], data [1]]` the payload
passed to result conversion is `["a"]` — the second data event (no string
elements) did not overwrite it, and the converted payload is not the raw
data array of the last data event. -/
theorem handleToolCall_payload_cex :
    (runStream (some "tok")
        [GradioEvent.data [GValue.str "a"], GradioEvent.data [GValue.num 1]]).1 =
      Except.ok ["a"] ∧
    lastDataArray [GradioEvent.data [GValue.str "a"], GradioEvent.data [GValue.num 1]] =
      some [GValue.num 1] ∧
    ([GValue.str "a"] : List GValue) ≠ [GValue.num 1] := by
  refine ⟨rfl, rfl, by decide⟩

/-- C3 (amended): a data event overwrites the captured payload only when
its array holds at least one string element, and what is captured is the
array of its string elements; the payload passed to result conversion is
the string projection of the last such data event. -/
theorem handleToolCall_payload_amended :
    (∀ (tok : Option String) (events : List GradioEvent) (r : List String),
        (runStream tok events).1 = Except.ok r → lastStringData events = some r) ∧
    (∀ (r : Option (List String)) (events : List GradioEvent) (d : List GValue),
        foldCapture r (events ++ [GradioEvent.data d]) =
          if (stringItems d).isEmpty then foldCapture r events
          else some (stringItems d)) := by
  constructor
  · intro tok events r h
    rw [runStream_fst] at h
    rcases hg : (if tokenTruthy tok then firstErrorStatus events else none) with _ | st
    · rw [hg] at h
      rcases hl : lastStringData events with _ | v
      · rw [hl] at h; cases h
      · rw [hl] at h
        cases h
        rfl
    · rw [hg] at h; cases h
  · intro r events d
    rw [foldCapture, List.foldl_append]
    rfl

/-- Witness for the amended C3 theorem at a concrete one-event stream. -/
theorem handleToolCall_payload_amended_witness :
    ((runStream (some "tok") [GradioEvent.data [GValue.str "hi"]]).1 =
      Except.ok ["hi"]) ∧
    lastStringData [GradioEvent.data [GValue.str "hi"]] = some ["hi"] :=
  ⟨rfl, handleToolCall_payload_amended.1 (some "tok")
    [GradioEvent.data [GValue.str "hi"]] ["hi"] rfl⟩

/-- C4 counterexample: the stream `[data [42]]` produced a data event, yet
the call fails with the no-data error because the captured payload only
retains string elements. -/
theorem handleToolCall_noData_cex :
    (runStream (some "tok") [GradioEvent.data [GValue.num 42]]).1 =
      Except.error CallError.noData ∧
    [GradioEvent.data [GValue.num 42]].any GradioEvent.isData = true :=
  ⟨rfl, rfl⟩

/-- C4 (amended): the call fails with the no-data error iff no abort
happened (no error-stage status under a truthy token) and the stream never
produced a data event whose array holds at least one string element;
whenever such an event was produced (and no abort happened) the call
proceeds to result conversion. -/
theorem handleToolCall_noData_amended (tok : Option String) (events : List GradioEvent) :
    (runStream tok events).1 = Except.error CallError.noData ↔
      ((tokenTruthy tok = true → firstErrorStatus events = none) ∧
        capturedStrings events = none) := by
  rw [runStream_fst, capturedStrings_eq]
  by_cases ht : tokenTruthy tok
  · simp only [ht, if_true]
    rcases hf : firstErrorStatus events with _ | st
    · rcases hl : lastStringData events with _ | v <;> simp
    · rcases hl : lastStringData events with _ | v <;> simp
  · simp only [ht, Bool.false_eq_true, if_false]
    rcases hl : lastStringData events with _ | v <;> simp [ht]

/-!
SchemaConverter: `parseNumberConstraints`, `isFileParameter`,
`convertParameter` and `convertApiToSchema` from src/gradio_convert.ts
(the variant pinned by test/utils.test.ts).  The three regular expressions
of `parseNumberConstraints` are implemented directly as leftmost-match
scanners; the only optional group, `(?:imum)?`, is tried greedily first
with a single backtrack, exactly as the regex engine would.
-/

/-- Case-insensitive literal matcher: consumes the pattern (given in
lowercase) from the front of the input, returning the rest. -/
def matchLit : List Char → List Char → Option (List Char)
  | [], s => some s
  | _ :: _, [] => none
  | p :: ps, c :: cs => if c.toLower = p then matchLit ps cs else none

/-- Regex `\s+`: at least one whitespace character. -/
def matchWs1 (s : List Char) : Option (List Char) :=
  if (s.takeWhile Char.isWhitespace).isEmpty then none
  else some (s.dropWhile Char.isWhitespace)

/-- Regex `\s*`. -/
def matchWs0 (s : List Char) : List Char :=
  s.dropWhile Char.isWhitespace

/-- Regex `(-?\d+\.?\d*)`: optional minus, one or more digits, optional
dot, any further digits; returns the captured characters and the rest.
The following pattern elements never overlap its character classes, so
greedy matching needs no backtracking here. -/
def matchNumberTok (s : List Char) : Option (List Char × List Char) :=
  let (neg, s1) : List Char × List Char :=
    match s with
    | '-' :: r => (['-'], r)
    | r => ([], r)
  let (ds, s2) := spanDigits s1
  if ds.isEmpty then none
  else
    let (dot, s3) : List Char × List Char :=
      match s2 with
      | '.' :: r => (['.'], r)
      | r => ([], r)
    let (fs, s4) := spanDigits s3
    some (neg ++ ds ++ dot ++ fs, s4)

/-- Match of `between\s+(-?\d+\.?\d*)\s+and\s+(-?\d+\.?\d*)` anchored at
the front of the input, yielding the two captures. -/
def betweenAt (s : List Char) : Option (String × String) := do
  let s1 ← matchLit "between".data s
  let s2 ← matchWs1 s1
  let (x, s3) ← matchNumberTok s2
  let s4 ← matchWs1 s3
  let s5 ← matchLit "and".data s4
  let s6 ← matchWs1 s5
  let (y, _) ← matchNumberTok s6
  some (String.mk x, String.mk y)

/-- Match of `\s*[:=]\s*(-?\d+\.?\d*)` anchored at the front. -/
def numAfterSep (s : List Char) : Option String := do
  let t2 ← (match matchWs0 s with
    | ':' :: r => some r
    | '=' :: r => some r
    | _ => none)
  let (x, _) ← matchNumberTok (matchWs0 t2)
  some (String.mk x)

/-- Match of `<word>(?:imum)?\s*[:=]\s*(-?\d+\.?\d*)` anchored at the
front: the optional `imum` is tried greedily, with one backtrack when the
remainder fails. -/
def minMaxAt (word : List Char) (s : List Char) : Option String :=
  match matchLit word s with
  | none => none
  | some s1 =>
      match matchLit "imum".data s1 with
      | some s2 => (numAfterSep s2).orElse (fun _ => numAfterSep s1)
      | none => numAfterSep s1

/-- Leftmost search: try the anchored matcher at every start position from
left to right (including the end-of-input position). -/
def searchAt {α : Type} (tryAt : List Char → Option α) : List Char → Option α
  | [] => tryAt []
  | c :: rest => (tryAt (c :: rest)).orElse (fun _ => searchAt tryAt rest)

/-- The source `description.match(/between\s+...\s+and\s+.../i)`. -/
def betweenSearch (s : String) : Option (String × String) :=
  searchAt betweenAt s.data

/-- The source `description.match(/min(?:imum)?\s*[:=]\s*.../i)`. -/
def minSearch (s : String) : Option String :=
  searchAt (minMaxAt "min".data) s.data

/-- The source `description.match(/max(?:imum)?\s*[:=]\s*.../i)`. -/
def maxSearch (s : String) : Option String :=
  searchAt (minMaxAt "max".data) s.data

/-- The mined constraints object: each key present only when matched. -/
structure NumConstraints where
  minimum : Option ℚ
  maximum : Option ℚ
deriving DecidableEq, Repr

/-- JavaScript `Number(capture)` for a capture of the numeric token
grammar (always a valid decimal literal). -/
def qOfCapture (s : String) : ℚ :=
  (jsNumber s).getD 0

/-- Source `parseNumberConstraints`: the `between X and Y` form wins and
returns immediately; otherwise the min and max patterns are matched
independently and only the matched bounds are added. -/
def parseNumberConstraints (description : String) : NumConstraints :=
  match betweenSearch description with
  | some (x, y) => ⟨some (qOfCapture x), some (qOfCapture y)⟩
  | none => ⟨(minSearch description).map qOfCapture,
             (maxSearch description).map qOfCapture⟩

/-- C6: numeric constraint mining — the `between X and Y` form wins and
short-circuits with both bounds; otherwise min and max patterns are matched
independently (case-insensitively) and only matched bounds appear; a
description matching neither yields no constraint keys; numbers may be
negative and fractional.  Checked structurally and on the specification's
concrete examples. -/
theorem parseNumberConstraints_spec :
    (∀ s x y, betweenSearch s = some (x, y) →
        parseNumberConstraints s = ⟨some (qOfCapture x), some (qOfCapture y)⟩) ∧
    (∀ s, betweenSearch s = none →
        parseNumberConstraints s =
          ⟨(minSearch s).map qOfCapture, (maxSearch s).map qOfCapture⟩) ∧
    parseNumberConstraints "between 256 and 2048" = ⟨some 256, some 2048⟩ ∧
    parseNumberConstraints "min: 0, max: 1.0" = ⟨some 0, some 1⟩ ∧
    parseNumberConstraints "maximum=100" = ⟨none, some 100⟩ ∧
    parseNumberConstraints "A number parameter" = ⟨none, none⟩ ∧
    parseNumberConstraints "between -2.5 and 3" = ⟨some (-(5 / 2)), some 3⟩ := by
  refine ⟨?_, ?_, ?_, ?_, ?_, ?_, ?_⟩
  · intro s x y h
    unfold parseNumberConstraints
    rw [h]
  · intro s h
    unfold parseNumberConstraints
    rw [h]
  · have hb : betweenSearch "between 256 and 2048" = some ("256", "2048") := by decide
    have e1 : qOfCapture "256" = (1 * ((digitsToNat ['2','5','6'] : ℚ) + 0)) := rfl
    have e2 : qOfCapture "2048" = (1 * ((digitsToNat ['2','0','4','8'] : ℚ) + 0)) := rfl
    have d1 : digitsToNat ['2','5','6'] = 256 := by decide
    have d2 : digitsToNat ['2','0','4','8'] = 2048 := by decide
    unfold parseNumberConstraints
    rw [hb]
    dsimp only
    rw [e1, e2, d1, d2]
    norm_num
  · have hb : betweenSearch "min: 0, max: 1.0" = none := by decide
    have hmin : minSearch "min: 0, max: 1.0" = some "0" := by decide
    have hmax : maxSearch "min: 0, max: 1.0" = some "1.0" := by decide
    have e1 : qOfCapture "0" = (1 * ((digitsToNat ['0'] : ℚ) + 0)) := rfl
    have e2 : qOfCapture "1.0" =
        (1 * ((digitsToNat ['1'] : ℚ) +
          (digitsToNat ['0'] : ℚ) / ((10 : ℚ) ^ (['0'] : List Char).length))) := rfl
    have d0 : digitsToNat ['0'] = 0 := by decide
    have d1 : digitsToNat ['1'] = 1 := by decide
    unfold parseNumberConstraints
    rw [hb]
    dsimp only
    rw [hmin, hmax]
    simp only [Option.map_some']
    rw [e1, e2, d0, d1]
    norm_num
  · have hb : betweenSearch "maximum=100" = none := by decide
    have hmin : minSearch "maximum=100" = none := by decide
    have hmax : maxSearch "maximum=100" = some "100" := by decide
    have e1 : qOfCapture "100" = (1 * ((digitsToNat ['1','0','0'] : ℚ) + 0)) := rfl
    have d1 : digitsToNat ['1','0','0'] = 100 := by decide
    unfold parseNumberConstraints
    rw [hb]
    dsimp only
    rw [hmin, hmax]
    simp only [Option.map_some', Option.map_none']
    rw [e1, d1]
    norm_num
  · have hb : betweenSearch "A number parameter" = none := by decide
    have hmin : minSearch "A number parameter" = none := by decide
    have hmax : maxSearch "A number parameter" = none := by decide
    unfold parseNumberConstraints
    rw [hb]
    dsimp only
    rw [hmin, hmax]
    rfl
  · have hb : betweenSearch "between -2.5 and 3" = some ("-2.5", "3") := by decide
    have e1 : qOfCapture "-2.5" =
        ((-1) * ((digitsToNat ['2'] : ℚ) +
          (digitsToNat ['5'] : ℚ) / ((10 : ℚ) ^ (['5'] : List Char).length))) := rfl
    have e2 : qOfCapture "3" = (1 * ((digitsToNat ['3'] : ℚ) + 0)) := rfl
    have d2 : digitsToNat ['2'] = 2 := by decide
    have d5 : digitsToNat ['5'] = 5 := by decide
    have d3 : digitsToNat ['3'] = 3 := by decide
    unfold parseNumberConstraints
    rw [hb]
    dsimp only
    rw [e1, e2, d2, d5, d3]
    norm_num

/-- Witness for the structural parts of the C6 theorem at concrete
descriptions. -/
theorem parseNumberConstraints_spec_witness :
    (betweenSearch "between 1 and 2" = some ("1", "2") ∧
      parseNumberConstraints "between 1 and 2" =
        ⟨some (qOfCapture "1"), some (qOfCapture "2")⟩) ∧
    (betweenSearch "no bounds here" = none ∧
      parseNumberConstraints "no bounds here" =
        ⟨(minSearch "no bounds here").map qOfCapture,
         (maxSearch "no bounds here").map qOfCapture⟩) :=
  ⟨⟨by decide, parseNumberConstraints_spec.1 _ _ _ (by decide)⟩,
    ⟨by decide, parseNumberConstraints_spec.2.1 _ (by decide)⟩⟩

/-- Detailed-type record of a parameter (`python_type`): a free-text type
expression and a free-text description. -/
structure PythonType where
  type : String
  description : String
deriving DecidableEq, Repr

/-- One parameter descriptor of a remote endpoint, with the fields the
converter and the call path consume.  Absent strings are modelled as `""`
(falsy), mirroring the source's truthiness tests. -/
structure ApiParameter where
  label : String
  parameter_name : String
  parameter_has_default : Bool
  parameter_default : GValue
  type : String
  python_type : Option PythonType
  component : String
  example_input : Option GValue
deriving DecidableEq, Repr

/-- The source test `param.python_type?.type === "filepath"`. -/
def hasFilepathType (param : ApiParameter) : Bool :=
  match param.python_type with
  | some pt => pt.type == "filepath"
  | none => false

/-- Source `isFileParameter`: detailed type `filepath`, or coarse type
`Blob | File | Buffer`, or component `Image` or `Audio`. -/
def isFileParameter (param : ApiParameter) : Bool :=
  hasFilepathType param ||
  param.type == "Blob | File | Buffer" ||
  param.component == "Image" ||
  param.component == "Audio"

/-- A converted parameter schema; each optional field models the presence
or absence of the corresponding JSON key. -/
structure ParamSchema where
  type : String
  description : Option String
  default : Option GValue
  examples : Option (List GValue)
  minimum : Option ℚ
  maximum : Option ℚ
  enum : Option (List String)
deriving DecidableEq, Repr

/-- The component-specialized file description of the filepath branch. -/
def fileDesc (component : String) : String :=
  if component == "Audio" then
    "Accepts: Audio file URL, file path, or resource identifier"
  else if component == "Image" then
    "Accepts: Image file URL, file path, or resource identifier"
  else "Accepts: URL, file path, or resource identifier"

/-- The detailed description, `""` when the record is absent. -/
def pyDescr (param : ApiParameter) : String :=
  match param.python_type with
  | some pt => pt.description
  | none => ""

/-- The description fallback chain
`python_type?.description || label || undefined`. -/
def descOr (param : ApiParameter) : Option String :=
  if !(pyDescr param == "") then some (pyDescr param)
  else if !(param.label == "") then some param.label
  else none

/-- The `example_input` value, `undefined` when absent (for the optional
chain in the blob branch). -/
def exInput (param : ApiParameter) : GValue :=
  match param.example_input with
  | some e => e
  | none => GValue.undefined

/-- The base schema of `convertParameter`: coarse type (default "string"
when empty), description fallback chain, default copied when flagged,
example copied as a single-element list when truthy. -/
def convBaseSchema (param : ApiParameter) : ParamSchema :=
  { type := if param.type == "" then "string" else param.type
    description := descOr param
    default := if param.parameter_has_default then some param.parameter_default else none
    examples :=
      match param.example_input with
      | some e => if e.truthy then some [e] else none
      | none => none
    minimum := none
    maximum := none
    enum := none }

/-- The enum list mined from a `Literal[...]` type expression: strip the
8-character head and the closing bracket, split on commas, trim each piece
and delete every single- or double-quote character. -/
def literalEnum (t : String) : List String :=
  (splitOnChar ',' ((t.data.drop 8).dropLast)).map
    (fun seg => String.mk ((trimChars seg).filter
      (fun c => !(c == Char.ofNat 39) && !(c == Char.ofNat 34))))

/-- Source `convertParameter` (the variant pinned by test/utils.test.ts):
filepath detailed type first, then the blob coarse type, then the base
schema refined by the number-constraint branch or the literal-enum
branch. -/
def convertParameter (param : ApiParameter) : ParamSchema :=
  if hasFilepathType param then
    { type := "string"
      description := some (fileDesc param.component)
      default := none
      examples :=
        match param.example_input with
        | some e => if e.truthy then some [jsOr e.urlField e.pathField] else none
        | none => none
      minimum := none, maximum := none, enum := none }
  else if param.type == "Blob | File | Buffer" then
    { type := "string"
      description := some "Accepts: URL, file path, or resource identifier"
      default := none
      examples :=
        some ([jsOr (exInput param).urlField (exInput param).pathField].filter GValue.truthy)
      minimum := none, maximum := none, enum := none }
  else if param.type == "number" && !(pyDescr param == "") then
    { convBaseSchema param with
        minimum := (parseNumberConstraints (pyDescr param)).minimum
        maximum := (parseNumberConstraints (pyDescr param)).maximum }
  else if (match param.python_type with
           | some pt => strStarts pt.type "Literal["
           | none => false) then
    { convBaseSchema param with
        description := descOr param
        enum := some (literalEnum (match param.python_type with
          | some pt => pt.type
          | none => "")) }
  else convBaseSchema param

/-- A parameter that is file-like only through its component kind: declared
coarse type "number", no detailed type record, component "Image". -/
def imgOnlyParam : ApiParameter :=
  { label := "Image Input", parameter_name := "img", parameter_has_default := false,
    parameter_default := GValue.null, type := "number", python_type := none,
    component := "Image", example_input := none }

/-- C7 counterexample: `imgOnlyParam` satisfies `isFileParameter` (its
component is Image), yet `convertParameter` leaves its schema type as the
declared "number" — the file-shaped schema is produced only for the
filepath detailed type or the blob coarse type, not for every file-like
parameter. -/
theorem convertParameter_fileLike_cex :
    isFileParameter imgOnlyParam = true ∧
    (convertParameter imgOnlyParam).type = "number" ∧
    (convertParameter imgOnlyParam).type ≠ "string" := by
  refine ⟨by decide, by decide, by decide⟩

/-- C7 (amended): a parameter whose detailed type is `filepath` yields the
string-typed file schema with the component-specialized description and,
when a truthy example is present, its url-or-path as the single example; a
parameter with the blob coarse type (and no filepath detailed type) yields
the string-typed generic file schema whose example list is the truthy
filter of the optional-chained url-or-path; every other parameter —
including those file-like only through an Image/Audio component — keeps
its declared coarse type (defaulting to "string" only when empty). -/
theorem convertParameter_fileLike_amended :
    (∀ p : ApiParameter, hasFilepathType p = true →
        (convertParameter p).type = "string" ∧
        (convertParameter p).description = some (fileDesc p.component) ∧
        (∀ e, p.example_input = some e → e.truthy = true →
          (convertParameter p).examples = some [jsOr e.urlField e.pathField])) ∧
    (∀ p : ApiParameter, hasFilepathType p = false →
        (p.type == "Blob | File | Buffer") = true →
        (convertParameter p).type = "string" ∧
        (convertParameter p).description =
          some "Accepts: URL, file path, or resource identifier" ∧
        (convertParameter p).examples =
          some ([jsOr (exInput p).urlField (exInput p).pathField].filter GValue.truthy)) ∧
    (∀ p : ApiParameter, hasFilepathType p = false →
        (p.type == "Blob | File | Buffer") = false →
        (convertParameter p).type = (if p.type == "" then "string" else p.type)) := by
  refine ⟨?_, ?_, ?_⟩
  · intro p h
    refine ⟨?_, ?_, ?_⟩
    · simp [convertParameter, h]
    · simp [convertParameter, h]
    · intro e he ht
      simp [convertParameter, h, he, ht]
  · intro p h1 h2
    refine ⟨?_, ?_, ?_⟩ <;> simp [convertParameter, h1, h2]
  · intro p h1 h2
    unfold convertParameter
    rw [if_neg (by simp [h1]), if_neg (by simp [h2])]
    split
    · rfl
    · split
      · rfl
      · rfl

/-- The example file value of the audio test fixture. -/
def audioEx : GValue :=
  GValue.file (some "https://example.com/audio_sample.wav")
    (some "https://example.com/audio_sample.wav") (some "audio_sample.wav") none

/-- The audio filepath parameter of test/utils.test.ts (empty coarse type,
filepath detailed type, Audio component). -/
def audioParam : ApiParameter :=
  { label := "parameter_1", parameter_name := "inputs", parameter_has_default := false,
    parameter_default := GValue.null, type := "",
    python_type := some ⟨"filepath", ""⟩, component := "Audio",
    example_input := some audioEx }

/-- Witness for the amended C7 theorem at the audio test fixture. -/
theorem convertParameter_fileLike_amended_witness :
    (hasFilepathType audioParam = true ∧
      audioParam.example_input = some audioEx ∧ audioEx.truthy = true) ∧
    ((convertParameter audioParam).type = "string" ∧
      (convertParameter audioParam).description = some (fileDesc audioParam.component) ∧
      (convertParameter audioParam).examples = some [jsOr audioEx.urlField audioEx.pathField]) :=
  ⟨⟨by decide, rfl, by decide⟩,
    ⟨(convertParameter_fileLike_amended.1 audioParam (by decide)).1,
     (convertParameter_fileLike_amended.1 audioParam (by decide)).2.1,
     (convertParameter_fileLike_amended.1 audioParam (by decide)).2.2 audioEx rfl (by decide)⟩⟩

/-!
EndpointWrapper.createEndpoint from src/endpoint_wrapper.ts: resolution of
the endpoint to bind given a configured path and the discovery response.
Named endpoints are an insertion-ordered association list (JavaScript
object keys beginning with `/` preserve insertion order); unnamed
endpoints carry their numeric keys in ascending order, as
`Object.entries` yields them.
-/

/-- One output slot of a remote endpoint. -/
structure ApiReturn where
  label : String
  type : String
  python_type : Option PythonType
  component : String
deriving DecidableEq, Repr

/-- The discovered schema of one callable endpoint. -/
structure ApiEndpoint where
  parameters : List ApiParameter
  returns : List ApiReturn
deriving DecidableEq, Repr

/-- The discovery response: named and unnamed (positional) endpoints. -/
structure ApiStructure where
  named_endpoints : List (String × ApiEndpoint)
  unnamed_endpoints : List (ℕ × ApiEndpoint)
deriving DecidableEq, Repr

/-- Lookup `api.named_endpoints[name]`. -/
def lookupNamed (api : ApiStructure) (name : String) : Option ApiEndpoint :=
  (api.named_endpoints.find? (fun kv => kv.1 == name)).map Prod.snd

/-- The fixed ordered preference list of common endpoint names. -/
def preferredApis : List String :=
  ["/predict", "/infer", "/generate", "/complete", "/model_chat", "/lambda",
   "/generate_image", "/process_prompt", "/on_submit", "/add_text"]

/-- The segments of the configured path (`configuredPath.split("/")` — no
leading-slash stripping here, unlike `parsePath`). -/
def configSegments (p : String) : List String :=
  (splitOnChar '/' p.data).map String.mk

/-- The explicitly requested endpoint: the third segment, slash-prefixed,
when present and truthy. -/
def endpointTargetOf (p : String) : Option String :=
  match (configSegments p).get? 2 with
  | some seg => if seg == "" then none else some ("/" ++ seg)
  | none => none

/-- The first preference-list name present among the named endpoints,
with its endpoint. -/
def preferredFind (api : ApiStructure) : Option (String × ApiEndpoint) :=
  preferredApis.findSome? (fun name => (lookupNamed api name).map (fun ep => (name, ep)))

/-- The first unnamed endpoint with at least one parameter and at least
one return. -/
def validUnnamed (api : ApiStructure) : Option (ℕ × ApiEndpoint) :=
  api.unnamed_endpoints.find? (fun kv =>
    decide (0 < kv.2.parameters.length) && decide (0 < kv.2.returns.length))

/-- The fallback chain of `createEndpoint` after the explicit target was
not used: preferred names, then the first named endpoint, then the first
valid unnamed endpoint, then the no-valid-endpoint error.  Each fallback
re-parses the configured path extended with the chosen designator. -/
def createEndpointFallback (p : String) (api : ApiStructure) :
    Except String (EndpointPath × ApiEndpoint) :=
  match preferredFind api with
  | some (name, ep) => (parsePath (p ++ name)).map (fun pp => (pp, ep))
  | none =>
    match api.named_endpoints.head? with
    | some (name, ep) => (parsePath (p ++ name)).map (fun pp => (pp, ep))
    | none =>
      match validUnnamed api with
      | some (idx, ep) => (parsePath (p ++ "/" ++ toString idx)).map (fun pp => (pp, ep))
      | none => Except.error ("No valid endpoints found for " ++ p)

/-- Source `createEndpoint` given the already-fetched discovery response:
segment-count check, explicit target when present and matching, else the
fallback chain. -/
def createEndpoint (p : String) (api : ApiStructure) :
    Except String (EndpointPath × ApiEndpoint) :=
  if decide ((configSegments p).length < 2) || decide (3 < (configSegments p).length) then
    Except.error
      ("Invalid space path format [" ++ p ++ "]. Use: vendor/space or vendor/space/endpoint")
  else
    match endpointTargetOf p with
    | some t =>
        match lookupNamed api t with
        | some ep => (parsePath p).map (fun pp => (pp, ep))
        | none => createEndpointFallback p api
    | none => createEndpointFallback p api

/-- An endpoint spec used in the resolution counterexample. -/
def predictEp : ApiEndpoint :=
  { parameters := [], returns := [] }

/-- A discovery response offering `/predict` and `/infer`. -/
def cexApi : ApiStructure :=
  { named_endpoints := [("/predict", predictEp), ("/infer", predictEp)],
    unnamed_endpoints := [] }

/-- C5 counterexample: with an explicit third segment that matches no named
endpoint, resolution does not fall back to binding `/predict` — the
fallback re-parses the four-segment path `own/spc/missing/predict` and
fails with the invalid-path-format error, even though `/predict` is
available. -/
theorem createEndpoint_resolution_cex :
    createEndpoint "own/spc/missing" cexApi =
      Except.error
        "Invalid Endpoint path format [own/spc/missing/predict]. Use or vendor/space/endpoint" ∧
    lookupNamed cexApi "/predict" = some predictEp := by
  refine ⟨rfl, rfl⟩

/-- C5 (amended): the binding priority holds as: (1) an explicit matching
third segment binds that named endpoint; with no explicit target (or a
non-matching one) resolution delegates to the fallback chain, which binds
(2) the first present name of the fixed preference list — whose first five
entries are /predict, /infer, /generate, /complete, /model_chat — else (3)
the first named endpoint in discovery order, else (4) the first unnamed
endpoint with at least one parameter and one return by positional index,
else (5) fails with the no-valid-endpoint error; in particular /predict
wins over /infer with no explicit target.  However, each fallback binds by
re-parsing the extended path, so when an explicit (non-matching) third
segment was present the re-parse sees four segments and fails (see the
counterexample) — fallback binding as claimed only happens for
two-segment paths. -/
theorem createEndpoint_resolution_amended :
    (∀ (p : String) (api : ApiStructure) (t : String) (ep : ApiEndpoint),
        2 ≤ (configSegments p).length → (configSegments p).length ≤ 3 →
        endpointTargetOf p = some t → lookupNamed api t = some ep →
        createEndpoint p api = (parsePath p).map (fun pp => (pp, ep))) ∧
    (∀ (p : String) (api : ApiStructure),
        2 ≤ (configSegments p).length → (configSegments p).length ≤ 3 →
        (endpointTargetOf p = none ∨
          (∃ t, endpointTargetOf p = some t ∧ lookupNamed api t = none)) →
        createEndpoint p api = createEndpointFallback p api) ∧
    (∀ (p : String) (api : ApiStructure) (name : String) (ep : ApiEndpoint),
        preferredFind api = some (name, ep) →
        createEndpointFallback p api = (parsePath (p ++ name)).map (fun pp => (pp, ep))) ∧
    (∀ (p : String) (api : ApiStructure) (name : String) (ep : ApiEndpoint),
        preferredFind api = none → api.named_endpoints.head? = some (name, ep) →
        createEndpointFallback p api = (parsePath (p ++ name)).map (fun pp => (pp, ep))) ∧
    (∀ (p : String) (api : ApiStructure) (idx : ℕ) (ep : ApiEndpoint),
        preferredFind api = none → api.named_endpoints = [] →
        validUnnamed api = some (idx, ep) →
        createEndpointFallback p api =
          (parsePath (p ++ "/" ++ toString idx)).map (fun pp => (pp, ep))) ∧
    (∀ (p : String) (api : ApiStructure),
        preferredFind api = none → api.named_endpoints = [] → validUnnamed api = none →
        createEndpointFallback p api =
          Except.error ("No valid endpoints found for " ++ p)) ∧
    (∀ (api : ApiStructure) (ep : ApiEndpoint),
        lookupNamed api "/predict" = some ep →
        preferredFind api = some ("/predict", ep)) ∧
    preferredApis.take 5 = ["/predict", "/infer", "/generate", "/complete", "/model_chat"] := by
  refine ⟨?_, ?_, ?_, ?_, ?_, ?_, ?_, by decide⟩
  · intro p api t ep h2 h3 ht hl
    unfold createEndpoint
    rw [if_neg (by simp; omega)]
    rw [ht]
    dsimp only
    rw [hl]
  · intro p api h2 h3 hcase
    unfold createEndpoint
    rw [if_neg (by simp; omega)]
    rcases hcase with h | ⟨t, ht, hl⟩
    · rw [h]
    · rw [ht]
      dsimp only
      rw [hl]
  · intro p api name ep h
    unfold createEndpointFallback
    rw [h]
  · intro p api name ep h1 h2
    unfold createEndpointFallback
    rw [h1, h2]
  · intro p api idx ep h1 h2 h3
    unfold createEndpointFallback
    rw [h1, h2, h3]
    rfl
  · intro p api h1 h2 h3
    unfold createEndpointFallback
    rw [h1, h2, h3]
    rfl
  · intro api ep h
    unfold preferredFind preferredApis
    rw [List.findSome?_cons]
    rw [h]
    rfl

/-- Witness for the amended C5 theorem: an explicit matching target binds
it, and /predict is preferred, at concrete inputs. -/
theorem createEndpoint_resolution_amended_witness :
    (2 ≤ (configSegments "own/spc/predict").length ∧
      (configSegments "own/spc/predict").length ≤ 3 ∧
      endpointTargetOf "own/spc/predict" = some "/predict" ∧
      lookupNamed cexApi "/predict" = some predictEp) ∧
    createEndpoint "own/spc/predict" cexApi =
      (parsePath "own/spc/predict").map (fun pp => (pp, predictEp)) ∧
    preferredFind cexApi = some ("/predict", predictEp) :=
  ⟨⟨by decide, by decide, rfl, rfl⟩,
    createEndpoint_resolution_amended.1 "own/spc/predict" cexApi "/predict" predictEp
      (by decide) (by decide) rfl rfl,
    createEndpoint_resolution_amended.2.2.2.2.2.2.1 cexApi predictEp rfl⟩

/-!
ContentConverter: `GradioConverter` from src/content_converter.ts.  HTTP
fetches, filesystem saves and generated filenames are oracle fields of
`ConvEnv`, so conversion is a pure function of the environment; the saved
file's local URI is abstracted as `file://` plus the generated name.
-/

/-- A fetched resource: the response content-type header (absent when the
server sent none) and the body as base64. -/
structure FetchedResource where
  contentType : Option String
  base64Data : String
deriving DecidableEq, Repr

/-- The conversion environment: the operating mode, the fetch oracle
(`Except` error is the thrown fetch failure's message), the save outcome
(`some msg` models a save error) and the filename generator
(prefix and extension to generated path). -/
structure ConvEnv where
  claudeDesktopMode : Bool
  fetchRes : String → Except String FetchedResource
  saveErr : Option String
  genFilename : String → String → String

/-- One content block of the call result.  The claude-desktop audio branch
writes its MIME field under the lowercase key `mimetype` with inline text;
the normal audio branch writes `mimeType` with a base64 blob — the two
resource shapes are kept distinct. -/
inductive ContentBlock where
  | text (text : String) : ContentBlock
  | image (data : String) (mimeType : String) : ContentBlock
  | resourceText (uri : String) (mimetype : String) (text : String) : ContentBlock
  | resourceBlob (uri : String) (mimeType : String) (blob : String) : ContentBlock
deriving DecidableEq, Repr

/-- Rendering of a rational for JSON output (exact where the decimal is
integral; the fraction form abstracts JavaScript float printing). -/
def ratLit (q : ℚ) : String :=
  if q.den == 1 then toString q.num else toString q.num ++ "/" ++ toString q.den

/-- JSON.stringify as far as the default text converter needs it (object
rendering and string escaping abstracted; stringify of `undefined` renders
as the interpolated text "undefined"). -/
def jsonStringify : GValue → String
  | .undefined => "undefined"
  | .null => "null"
  | .str s => "\"" ++ s ++ "\""
  | .num q => ratLit q
  | .bool b => if b then "true" else "false"
  | .file _ _ _ _ => "\x7bobject\x7d"
  | .handle _ => "\x7bobject\x7d"

/-- Source `createTextContent`: optional `label: ` head, then the value
itself when it is a string, else its JSON rendering. -/
def createTextContent (component : ApiReturn) (value : GValue) : ContentBlock :=
  .text ((if component.label == "" then "" else component.label ++ ": ") ++
    (match value with
     | .str s => s
     | v => jsonStringify v))

/-- Source `getMimeTypeFromOriginalName`: the lowercased extension after
the last dot maps a fixed set of image extensions to `image/<ext>`, a
fixed set of audio extensions to `audio/<ext>`, else `application/<ext>`;
no extension yields nothing. -/
def mimeFromOrig (origName : String) : Option String :=
  let ext := String.mk ((((splitOnChar '.' origName.data).getLastD [])).map Char.toLower)
  if ext == "" then none
  else if ["jpg", "jpeg", "png", "gif", "webp", "bmp", "svg"].contains ext then
    some ("image/" ++ ext)
  else if ["mp3", "wav", "ogg", "aac", "m4a"].contains ext then
    some ("audio/" ++ ext)
  else some ("application/" ++ ext)

/-- Source `determineMimeType` precedence: explicit `mime_type` field,
else derived from `orig_name`, else the response content-type header
unless it is the generic `text/plain`, else `text/plain`. -/
def determineMimeType (value : GValue) (headerCT : Option String) : String :=
  let vm := match value with | .file _ _ _ (some m) => m | _ => ""
  if !(vm == "") then vm
  else
    let vo := match value with | .file _ _ (some o) _ => o | _ => ""
    match (if !(vo == "") then mimeFromOrig vo else none) with
    | some m => m
    | none =>
        match headerCT with
        | some h => if !(h == "") && !(h == "text/plain") then h else "text/plain"
        | none => "text/plain"

/-- Source `getExtensionFromFilename`: the last path segment of the URL
(query/fragment stripped) yields its suffix after the last dot when it
contains one. -/
def extFromUrl (url : String) : Option String :=
  let lastSeg := ((splitOnChar '/' url.data).getLastD []).takeWhile
    (fun c => !(c == '?') && !(c == '#'))
  if lastSeg.contains '.' then
    match (splitOnChar '.' lastSeg).getLastD [] with
    | [] => none
    | ext => some (String.mk ext)
  else none

/-- Extension preference of `saveFile`: the original file's extension,
else the MIME subtype, else `bin`. -/
def extChoice (mime : String) (origExt : Option String) : String :=
  let mimeSeg :=
    match (splitOnChar '/' mime.data).get? 1 with
    | some seg => if seg.isEmpty then "bin" else String.mk seg
    | none => "bin"
  match origExt with
  | some e => if e == "" then mimeSeg else e
  | none => mimeSeg

/-- The registered image converter: requires a truthy `url` on the value
(else falls through), converts a fetch failure into a labelled
`Failed to load image` text block, degrades a save failure to a warning
only in claude-desktop mode, and yields an inline base64 image block. -/
def imageConverter (env : ConvEnv) (component : ApiReturn) (value : GValue) :
    Option ContentBlock :=
  match value with
  | .file (some u) _ _ _ =>
      if u == "" then none
      else
        match env.fetchRes u with
        | .error e =>
            some (createTextContent component (.str ("Failed to load image: " ++ e)))
        | .ok res =>
            match env.saveErr with
            | some m =>
                if env.claudeDesktopMode then
                  some (.image res.base64Data (determineMimeType value res.contentType))
                else
                  some (createTextContent component (.str ("Failed to load image: " ++ m)))
            | none => some (.image res.base64Data (determineMimeType value res.contentType))
  | _ => none

/-- The registered audio converter: requires a truthy `url`, converts any
fetch or save failure into an unlabelled `Failed to load audio` text
block, and returns an embedded resource — an explanatory text note in
claude-desktop mode, else the base64 blob with the determined MIME type. -/
def audioConverter (env : ConvEnv) (_component : ApiReturn) (value : GValue) :
    Option ContentBlock :=
  match value with
  | .file (some u) _ _ _ =>
      if u == "" then none
      else
        match env.fetchRes u with
        | .error e => some (.text ("Failed to load audio: " ++ e))
        | .ok res =>
            match env.saveErr with
            | some m => some (.text ("Failed to load audio: " ++ m))
            | none =>
                let mime := determineMimeType value res.contentType
                let filename := env.genFilename "audio" (extChoice mime (extFromUrl u))
                if env.claudeDesktopMode then
                  some (.resourceText ("file://" ++ filename) "text/plain"
                    ("Your audio was succesfully created and is available for playback at " ++
                      filename ++ ". Claude Desktop does not currently support audio content"))
                else some (.resourceBlob ("file://" ++ filename) mime res.base64Data)
  | _ => none

/-- Source `GradioConverter.convert`: dispatch on the component kind —
Image and Audio through their converters with the text fallback, Chatbot
registered as always-fall-through, anything unregistered straight to the
default text converter. -/
def gradioConvert (env : ConvEnv) (component : ApiReturn) (value : GValue) :
    ContentBlock :=
  if component.component == "Image" then
    match imageConverter env component value with
    | some b => b
    | none => createTextContent component value
  else if component.component == "Audio" then
    match audioConverter env component value with
    | some b => b
    | none => createTextContent component value
  else createTextContent component value

/-- JavaScript indexing `xs[i]`: `undefined` when out of range. -/
def jsIndex (xs : List GValue) (i : ℕ) : GValue :=
  (xs.get? i).getD GValue.undefined

/-- The indexed conversion loop of `convertPredictResults`, one block per
return descriptor. -/
def convertRows (env : ConvEnv) (payload : List GValue) : ℕ → List ApiReturn → List ContentBlock
  | _, [] => []
  | i, r :: rest => gradioConvert env r (jsIndex payload i) :: convertRows env payload (i + 1) rest

/-- The call result shape handed back to the host protocol. -/
structure CallToolResult where
  content : List ContentBlock
  isError : Bool
deriving DecidableEq, Repr

/-- Source `convertPredictResults`: pair the payload positionally with the
return descriptors and convert each pair; the result is flagged as not an
error. -/
def convertPredictResults (env : ConvEnv) (returns : List ApiReturn)
    (predictResults : List GValue) : CallToolResult :=
  { content := convertRows env predictResults 0 returns
    isError := false }

/-!
File-path validation and the parameter-processing half of
`EndpointWrapper.call` from src/endpoint_wrapper.ts.  Path resolution and
the filesystem are oracle fields of `FsEnv`; `resolveNorm` stands for
`path.normalize(path.resolve(.))` and `cwdNorm` for the normalized working
directory.
-/

/-- The filesystem environment of `validateFilePath`. -/
structure FsEnv where
  cwdNorm : String
  resolveNorm : String → String
  fileExists : String → Bool

/-- Whether the value is passed through as a URL without any check. -/
def isHttpUrl (s : String) : Bool :=
  strStarts s "http://" || strStarts s "https://"

/-- The two rejection reasons of `validateFilePath`; both surface as the
`Invalid or missing file: <path> (<cause>)` error that fails the call. -/
inductive FileError where
  | outsideCwd (path : String)
  | missing (path : String)
deriving DecidableEq, Repr

/-- Source `validateFilePath`: http(s) URLs pass with no further check;
otherwise the resolved path must start with the working directory and the
file must be accessible on disk. -/
def validateFilePath (env : FsEnv) (filePath : String) : Except FileError Unit :=
  if isHttpUrl filePath then Except.ok ()
  else if !(strStarts (env.resolveNorm filePath) env.cwdNorm) then
    Except.error (.outsideCwd filePath)
  else if env.fileExists (env.resolveNorm filePath) then Except.ok ()
  else Except.error (.missing filePath)

/-- The parameter lookup of the call loop: wire-level name or label. -/
def findParam (endpointParams : List ApiParameter) (key : String) : Option ApiParameter :=
  endpointParams.find? (fun q => q.parameter_name == key || q.label == key)

/-- The pre-submission argument loop of `call`: every string value of a
file-like parameter is validated and replaced with an upload handle; the
first rejection aborts the whole call. -/
def processFileParams (env : FsEnv) (endpointParams : List ApiParameter) :
    List (String × GValue) → Except FileError (List (String × GValue))
  | [] => Except.ok []
  | (key, value) :: rest =>
      let step : Except FileError GValue :=
        match findParam endpointParams key, value with
        | some q, .str s =>
            if isFileParameter q then
              match validateFilePath env s with
              | .ok _ => .ok (.handle s)
              | .error e => .error e
            else .ok value
        | _, _ => .ok value
      match step with
      | .error e => .error e
      | .ok v => (processFileParams env endpointParams rest).map (fun tl => (key, v) :: tl)

/-- Failure modes of a whole call: a rejected file path (before
submission) or a stream-level failure. -/
inductive CallFailure where
  | file (e : FileError)
  | stream (e : CallError)
deriving DecidableEq, Repr

/-- The whole of `call`/`handleToolCall`: process the arguments, then (only
when that succeeded) consume the submission stream and convert the
captured payload against the return descriptors. -/
def callModel (env : FsEnv) (cenv : ConvEnv) (endpoint : ApiEndpoint)
    (tok : Option String) (args : List (String × GValue))
    (events : List GradioEvent) : Except CallFailure CallToolResult :=
  match processFileParams env endpoint.parameters args with
  | .error e => .error (.file e)
  | .ok _ =>
      match (runStream tok events).1 with
      | .error e => .error (.stream e)
      | .ok strs =>
          .ok (convertPredictResults cenv endpoint.returns (strs.map GValue.str))

/-- C9: for file-like parameters, non-URL string arguments are rejected
both when they resolve outside the working directory and when the named
file does not exist (a filesystem-access check is performed): acceptance
of a non-URL path is equivalent to containment plus existence; an in-root
but missing file yields the rejection; a rejected argument fails the whole
call identically for every possible stream (so before submission); and
http(s) URLs pass with neither check. -/
theorem validateFilePath_spec :
    (∀ (env : FsEnv) (p : String), isHttpUrl p = true →
        validateFilePath env p = Except.ok ()) ∧
    (∀ (env : FsEnv) (p : String), isHttpUrl p = false →
        (validateFilePath env p = Except.ok () ↔
          (strStarts (env.resolveNorm p) env.cwdNorm = true ∧
            env.fileExists (env.resolveNorm p) = true))) ∧
    (∀ (env : FsEnv) (p : String), isHttpUrl p = false →
        strStarts (env.resolveNorm p) env.cwdNorm = true →
        env.fileExists (env.resolveNorm p) = false →
        validateFilePath env p = Except.error (FileError.missing p)) ∧
    (∀ (env : FsEnv) (eps : List ApiParameter) (key s : String)
        (rest : List (String × GValue)) (q : ApiParameter) (e : FileError),
        findParam eps key = some q → isFileParameter q = true →
        validateFilePath env s = Except.error e →
        processFileParams env eps ((key, GValue.str s) :: rest) = Except.error e) ∧
    (∀ (env : FsEnv) (cenv : ConvEnv) (ep : ApiEndpoint) (tok : Option String)
        (args : List (String × GValue)) (e : FileError),
        processFileParams env ep.parameters args = Except.error e →
        ∀ events, callModel env cenv ep tok args events =
          Except.error (CallFailure.file e)) := by
  refine ⟨?_, ?_, ?_, ?_, ?_⟩
  · intro env p h
    simp [validateFilePath, h]
  · intro env p h
    unfold validateFilePath
    rw [if_neg (by simp [h])]
    by_cases hs : strStarts (env.resolveNorm p) env.cwdNorm
    · by_cases he : env.fileExists (env.resolveNorm p)
      · simp [hs, he]
      · simp [hs, he]
    · simp [hs]
  · intro env p h hs he
    simp [validateFilePath, h, hs, he]
  · intro env eps key s rest q e hf hfile hv
    simp [processFileParams, hf, hfile, hv]
  · intro env cenv ep tok args e h events
    unfold callModel
    rw [h]

/-- A filesystem oracle where no file exists and resolution is literal. -/
def fsEnvCex : FsEnv :=
  { cwdNorm := "/work", resolveNorm := fun s => s, fileExists := fun _ => false }

/-- A conversion environment whose fetches fail. -/
def convEnvCex : ConvEnv :=
  { claudeDesktopMode := false, fetchRes := fun _ => Except.error "network unavailable",
    saveErr := none, genFilename := fun pre ext => pre ++ "." ++ ext }

/-- An endpoint with one file-like parameter. -/
def missingFileEp : ApiEndpoint :=
  { parameters := [imgOnlyParam], returns := [] }

/-- Witness for C9 at concrete inputs: a URL passes unchecked; an in-root
missing file is rejected; the rejection fails the whole call. -/
theorem validateFilePath_spec_witness :
    (isHttpUrl "http://host/x.png" = true ∧
      validateFilePath fsEnvCex "http://host/x.png" = Except.ok ()) ∧
    (isHttpUrl "/work/missing.png" = false ∧
      strStarts (fsEnvCex.resolveNorm "/work/missing.png") fsEnvCex.cwdNorm = true ∧
      fsEnvCex.fileExists (fsEnvCex.resolveNorm "/work/missing.png") = false ∧
      validateFilePath fsEnvCex "/work/missing.png" =
        Except.error (FileError.missing "/work/missing.png")) ∧
    (processFileParams fsEnvCex missingFileEp.parameters
        [("img", GValue.str "/work/missing.png")] =
        Except.error (FileError.missing "/work/missing.png") ∧
      callModel fsEnvCex convEnvCex missingFileEp none
        [("img", GValue.str "/work/missing.png")] [] =
        Except.error (CallFailure.file (FileError.missing "/work/missing.png"))) :=
  ⟨⟨rfl, validateFilePath_spec.1 fsEnvCex "http://host/x.png" rfl⟩,
   ⟨rfl, rfl, rfl,
     validateFilePath_spec.2.2.1 fsEnvCex "/work/missing.png" rfl rfl rfl⟩,
   ⟨rfl,
     validateFilePath_spec.2.2.2.2 fsEnvCex convEnvCex missingFileEp none
       [("img", GValue.str "/work/missing.png")]
       (FileError.missing "/work/missing.png") rfl []⟩⟩

/-- Content length of the conversion loop. -/
theorem convertRows_length (env : ConvEnv) (payload : List GValue) :
    ∀ (rs : List ApiReturn) (j : ℕ), (convertRows env payload j rs).length = rs.length := by
  intro rs
  induction rs with
  | nil => intro j; rfl
  | cons r rest ih =>
      intro j
      simp [convertRows, ih]

/-- Pointwise description of the conversion loop. -/
theorem convertRows_get (env : ConvEnv) (payload : List GValue) :
    ∀ (rs : List ApiReturn) (j i : ℕ),
      (convertRows env payload j rs).get? i =
        (rs.get? i).map (fun r => gradioConvert env r (jsIndex payload (j + i))) := by
  intro rs
  induction rs with
  | nil => intro j i; rfl
  | cons r rest ih =>
      intro j i
      cases i with
      | zero => simp [convertRows]
      | succ i2 =>
          simp only [convertRows, List.get?_cons_succ, ih]
          simp only [show j + 1 + i2 = j + (i2 + 1) from by omega]

/-- C10: every successful call result is flagged not-an-error and holds
exactly one content block per declared return descriptor, in descriptor
order — positions beyond the captured payload convert the absent
(undefined) value, and extra payload elements are ignored. -/
theorem convertPredictResults_shape :
    (∀ (env : ConvEnv) (returns : List ApiReturn) (payload : List GValue),
        (convertPredictResults env returns payload).isError = false ∧
        (convertPredictResults env returns payload).content.length = returns.length ∧
        (∀ i : ℕ, (convertPredictResults env returns payload).content.get? i =
          (returns.get? i).map (fun r => gradioConvert env r (jsIndex payload i)))) ∧
    (∀ (fenv : FsEnv) (cenv : ConvEnv) (ep : ApiEndpoint) (tok : Option String)
        (args : List (String × GValue)) (events : List GradioEvent) (res : CallToolResult),
        callModel fenv cenv ep tok args events = Except.ok res →
        res.isError = false ∧ res.content.length = ep.returns.length) := by
  constructor
  · intro env returns payload
    refine ⟨rfl, convertRows_length env payload returns 0, ?_⟩
    intro i
    have h := convertRows_get env payload returns 0 i
    simpa using h
  · intro fenv cenv ep tok args events res h
    unfold callModel at h
    rcases hp : processFileParams fenv ep.parameters args with e | vs
    · rw [hp] at h; cases h
    · rw [hp] at h
      rcases hs : (runStream tok events).1 with e | strs
      · rw [hs] at h; cases h
      · rw [hs] at h
        cases h
        exact ⟨rfl, convertRows_length cenv (strs.map GValue.str) ep.returns 0⟩

/-- A plain text return descriptor. -/
def textRet : ApiReturn :=
  { label := "Result", type := "string", python_type := none, component := "Textbox" }

/-- An endpoint with no parameters and one text return. -/
def textEp : ApiEndpoint :=
  { parameters := [], returns := [textRet] }

/-- Witness for the call-level part of C10 at a concrete successful call. -/
theorem convertPredictResults_shape_witness :
    (callModel fsEnvCex convEnvCex textEp (some "tok") []
        [GradioEvent.data [GValue.str "hi"]] =
      Except.ok (convertPredictResults convEnvCex [textRet] [GValue.str "hi"])) ∧
    ((convertPredictResults convEnvCex [textRet] [GValue.str "hi"]).isError = false ∧
      (convertPredictResults convEnvCex [textRet] [GValue.str "hi"]).content.length =
        textEp.returns.length) :=
  ⟨rfl,
    convertPredictResults_shape.2 fsEnvCex convEnvCex textEp (some "tok") []
      [GradioEvent.data [GValue.str "hi"]]
      (convertPredictResults convEnvCex [textRet] [GValue.str "hi"]) rfl⟩
